import Mathlib

/-!
Shallow embedding of the irma-watchdogd check-execution and issue-diffing
engine (`main.go`, `health_check.go`, `issue_entry.go`, `util.go`), together
with theorems settling the frozen claims about it.

Conventions of the embedding:
* Go slices become `List`, Go maps become association lists or functions to
  `Option`, machine strings become `String`.
* The HTTP world is explicit: one network attempt is a value of type
  `Attempt` (context-cancellation flag plus either a transport error or a
  delivered response), and a whole execution is driven by a supply
  `attempts : Nat → Attempt` giving the outcome of the i-th attempt.
* `retryablehttp` (hashicorp/go-retryablehttp v0.7.7, pinned in go.mod) is
  embedded only as far as the watchdog exercises it: `DefaultRetryPolicy`
  and the `Client.Do` retry loop with a custom `CheckRetry` callback.
-/

/-! ## Definitions -/

/-- Severity of an issue; `issue_entry.go`: `warning` = 0, `danger` = 1. -/
inductive issueType where
  | warning
  | danger
deriving DecidableEq, Repr

export issueType (warning danger)

/-- `issue_entry.go`: an issue is a severity plus a message. -/
structure issueEntry where
  issueType : issueType
  message : String
deriving DecidableEq, Repr

/-- `issue_entry.go`: `type issueEntries []issueEntry`. -/
abbrev issueEntries := List issueEntry

/-- `issue_entry.go` `messages()`: project all messages, in order. -/
def issueEntries.messages (il : issueEntries) : List String :=
  il.map (fun i => i.message)

/-- `issue_entry.go` `filter(t)`: messages of the issues of severity `t`,
in order. -/
def issueEntries.filter (il : issueEntries) (t : issueType) : List String :=
  (List.filter (fun i => i.issueType == t) il).map (fun i => i.message)

/-- Go `int(x)` truncation of `hours/24` toward zero, for whole-hour
inputs (on whole hours the float computation in Go is exact). -/
def goDaysDiv24 (h : Int) : Int :=
  if 0 ≤ h then ((h.toNat / 24 : Nat) : Int) else -(((-h).toNat / 24 : Nat) : Int)

/-- One write to the Go map `lut` (`map[string]bool`), modelled as a
function to `Option Bool` (`none` = key absent). -/
def lutInsert (lut : String → Option Bool) (k : String) (b : Bool) :
    String → Option Bool :=
  fun m => if m = k then some b else lut m

/-- The first loop of `difference`: `for _, x := range old { lut[x.message] = true }`. -/
def buildLut : issueEntries → (String → Option Bool)
  | [] => fun _ => none
  | x :: rest => lutInsert (buildLut rest) x.message true

/-- The second loop of `difference`: walk `cur`, collecting the issues whose
message is absent from `lut` (in order) and marking the present ones
still-present (`lut[msg] = false`). -/
def curPass (lut : String → Option Bool) :
    issueEntries → issueEntries × (String → Option Bool)
  | [] => ([], lut)
  | x :: rest =>
    match lut x.message with
    | none =>
      let r := curPass lut rest
      (x :: r.1, r.2)
    | some _ => curPass (lutInsert lut x.message false) rest

/-- `main.go` `difference(old, cur)`: build the presence map from `old`,
walk `cur` to split off the appeared issues and mark still-present
messages, then keep from `old` exactly the messages still marked `true`. -/
def difference (old cur : issueEntries) : issueEntries × issueEntries :=
  let lut := buildLut old
  let r := curPass lut cur
  let gone := List.filter (fun x => (r.2 x.message).getD false) old
  (r.1, gone)

/-- `true` iff some issue in `il` carries message `m`; the string-equality
message lookup that `difference` is specified against. -/
def hasMessage (il : issueEntries) (m : String) : Bool :=
  il.any (fun y => y.message == m)

/-- `health_check.go`: the configuration of one HTTP health check.
Go maps for headers are modelled as association lists (header keys appear
in canonical form, each key once, matching `http.Header.Get` lookups). -/
structure HealthCheck where
  RequestURL : String
  RequestMethod : String
  RequestHeaders : List (String × String)
  RequestBody : String
  ResponseStatusCodeEquals : Nat
  ResponseHeaderContains : List (String × String)
  ResponseBodyContains : String
deriving DecidableEq, Repr

/-- The defaults `runHealthCheck` fills in on its local copy of the check:
method "GET" and expected status 200. -/
def applyDefaults (check : HealthCheck) : HealthCheck :=
  { check with
      RequestMethod := if check.RequestMethod = "" then "GET" else check.RequestMethod,
      ResponseStatusCodeEquals :=
        if check.ResponseStatusCodeEquals = 0 then 200 else check.ResponseStatusCodeEquals }

/-- A delivered `*http.Response` as the watchdog inspects it: status code,
response headers, and the body (with a flag for whether reading the body
stream succeeds, `ioutil.ReadAll`). -/
structure HTTPResponse where
  statusCode : Nat
  headers : List (String × String)
  bodyReadable : Bool
  body : String
deriving DecidableEq, Repr

/-- Outcome of one HTTP round trip as handed to `CheckRetry` and to the
classifier: either a transport error (`resp == nil`, `err != nil`; the
`permanent` flag records whether the error text matches one of
`retryablehttp.baseRetryPolicy`'s never-retry patterns — redirect loop,
bad scheme, invalid header, untrusted certificate) or a response. -/
inductive RespResult where
  | err (msg : String) (permanent : Bool)
  | ok (resp : HTTPResponse)
deriving DecidableEq, Repr

/-- One attempt as the retry loop observes it: whether the request context
is cancelled by the time `CheckRetry` runs, and the round-trip outcome. -/
structure Attempt where
  ctxCancelled : Bool
  result : RespResult
deriving DecidableEq, Repr

/-- `http.Header.Get`: value of the first pair with the given (canonical)
key, or `""` when absent. -/
def headerGet (hs : List (String × String)) (k : String) : String :=
  match hs.find? (fun p => p.1 == k) with
  | some p => p.2
  | none => ""

/-- `chars sub` begins `chars s`? -/
def charsStartWith : List Char → List Char → Bool
  | [], _ => true
  | _ :: _, [] => false
  | a :: as, b :: bs => a == b && charsStartWith as bs

/-- `chars sub` occurs contiguously in `chars s`? -/
def charsOccurIn (sub : List Char) : List Char → Bool
  | [] => sub.isEmpty
  | b :: bs => charsStartWith sub (b :: bs) || charsOccurIn sub bs

/-- Go `strings.Contains s sub` (true for the empty substring). -/
def strContains (s sub : String) : Bool :=
  charsOccurIn sub.toList s.toList

/-- `resp.Header.Get(key) != value` for one required response header. -/
def headerMismatch (resp : HTTPResponse) (kv : String × String) : Bool :=
  headerGet resp.headers kv.1 != kv.2

/-- `health_check.go` `generateHealthCheckIssueEntry`: classify one
response (or transport error) against the check, returning the first
violation encountered by the early-return chain, or `none` when clean.
The Go `range` over the required-headers map is modelled as iteration in
the stored association-list order. -/
def generateHealthCheckIssueEntry (check : HealthCheck) (r : RespResult) :
    Option issueEntry :=
  match r with
  | .err _ _ => some ⟨danger, check.RequestURL ++ ": cannot be reached"⟩
  | .ok resp =>
    if !resp.bodyReadable then
      some ⟨danger, check.RequestURL ++ ": response body could not be read"⟩
    else if resp.statusCode ≠ check.ResponseStatusCodeEquals then
      some ⟨danger, check.RequestURL ++ ": received unexpected status code "
        ++ toString resp.statusCode⟩
    else
      match List.find? (headerMismatch resp) check.ResponseHeaderContains with
      | some kv =>
        some ⟨danger, check.RequestURL ++ ": expected response header \""
          ++ kv.1 ++ ": " ++ kv.2 ++ "\" could not be found"⟩
      | none =>
        if !strContains resp.body check.ResponseBodyContains then
          some ⟨danger, check.RequestURL ++ ": expected response body \""
            ++ check.ResponseBodyContains ++ "\" could not be found"⟩
        else none

/-- `retryablehttp.DefaultRetryPolicy` (v0.7.7) as exercised here: no retry
once the context is cancelled (and then with a non-nil policy error);
otherwise retry any transport error except the permanent patterns, and
retry a delivered response iff its status is 429, 0, or 500+ except 501.
Returns (shouldRetry, policy error present). -/
def defaultRetryPolicy (a : Attempt) : Bool × Bool :=
  if a.ctxCancelled then (false, true)
  else
    match a.result with
    | .err _ permanent => (!permanent, false)
    | .ok resp =>
      (resp.statusCode == 429 || resp.statusCode == 0 ||
        (decide (500 ≤ resp.statusCode) && resp.statusCode ≠ 501), false)

/-- `retryablehttp.Client.Do` driven by `runHealthCheck`'s custom
`CheckRetry` closure: at attempt `i` run `DefaultRetryPolicy`; when it
says retry, record the attempt's classification into the captured
`intermediateIssue` cell if that is still empty, then either loop (budget
left) or give up with a transport-level error; when it says stop, succeed
with the delivered response unless the round trip errored or the context
was cancelled. Returns (outcome handed back from `Do`, recorded
intermediate issue, number of attempts performed). -/
def doStop (a : Attempt) : RespResult :=
  if a.ctxCancelled then .err "context cancelled" true else a.result

def doLoop (c : HealthCheck) (attempts : Nat → Attempt) :
    Nat → Nat → Option issueEntry → RespResult × Option issueEntry × Nat
  | i, 0, inter =>
    let a := attempts i
    let p := defaultRetryPolicy a
    let inter' :=
      if p.1 && inter.isNone then generateHealthCheckIssueEntry c a.result
      else inter
    if p.1 then (.err "giving up after retries" true, inter', i + 1)
    else (doStop a, inter', i + 1)
  | i, f + 1, inter =>
    let a := attempts i
    let p := defaultRetryPolicy a
    let inter' :=
      if p.1 && inter.isNone then generateHealthCheckIssueEntry c a.result
      else inter
    if p.1 then doLoop c attempts (i + 1) f inter'
    else (doStop a, inter', i + 1)

/-- `health_check.go` `runHealthCheck`: fill defaults, fail as a Warning
on request-construction errors, otherwise run the retrying client and
classify its outcome; a clean final classification after a recorded
intermediate issue becomes the Warning-severity unstable report.
`buildFails` abstracts whether `retryablehttp.NewRequest` rejects the
spec's method/URL; `retryMax` is the client's retry budget
(`retryablehttp.NewClient` default: 4); `attempts` supplies the network
outcomes. -/
def runHealthCheck (check : HealthCheck) (buildFails : Bool) (retryMax : Nat)
    (attempts : Nat → Attempt) : Option issueEntry :=
  let c := applyDefaults check
  if buildFails then some ⟨warning, c.RequestURL ++ ": invalid health check"⟩
  else
    let r := doLoop c attempts 0 retryMax none
    match generateHealthCheckIssueEntry c r.1 with
    | some issue => some issue
    | none =>
      match r.2.1 with
      | some ii => some ⟨warning, "Unstable health check: " ++ ii.message⟩
      | none => none

/-- Number of network attempts one invocation of `runHealthCheck`
performs (0 when the request cannot even be constructed). -/
def runHealthCheckCount (check : HealthCheck) (buildFails : Bool) (retryMax : Nat)
    (attempts : Nat → Attempt) : Nat :=
  if buildFails then 0
  else (doLoop (applyDefaults check) attempts 0 retryMax none).2.2

/-- A basic all-clean check/response pair used in concrete runs below. -/
def okCheck : HealthCheck :=
  ⟨"https://x", "", [], "", 0, [], ""⟩

/-- A clean 200 response. -/
def okResp : HTTPResponse := ⟨200, [], true, ""⟩

/-- A 500 response (retryable and non-clean for `okCheck`). -/
def resp500 : HTTPResponse := ⟨500, [], true, ""⟩

/-- A 404 response (non-clean for `okCheck` but not retryable). -/
def resp404 : HTTPResponse := ⟨404, [], true, ""⟩

/-- The semantics of the captured `intermediateIssue` cell: keep the first
recorded value. -/
def orElseO (a b : Option issueEntry) : Option issueEntry :=
  match a with
  | some x => some x
  | none => b

/-- First non-clean classification among the attempts `i, …, i+k-1`. -/
def firstClassAmong (c : HealthCheck) (attempts : Nat → Attempt) :
    Nat → Nat → Option issueEntry
  | _, 0 => none
  | i, k + 1 =>
    orElseO (generateHealthCheckIssueEntry c (attempts i).result)
      (firstClassAmong c attempts (i + 1) k)

/-- An endpoint that answers 500 once and then behaves. -/
def flakyAttempts : Nat → Attempt :=
  fun i => if i = 0 then ⟨false, .ok resp500⟩ else ⟨false, .ok okResp⟩

/-- An endpoint that answers 404 once and then behaves. -/
def notFoundAttempts : Nat → Attempt :=
  fun i => if i = 0 then ⟨false, .ok resp404⟩ else ⟨false, .ok okResp⟩

/-- A client that fails every round trip with a permanent (never-retried)
transport error and no response. -/
def permErrAttempts : Nat → Attempt :=
  fun _ => ⟨false, .err "unsupported protocol scheme" true⟩

/-- Modelled from the spec's words, for the refinement side of C2: the
list of all violations of one response, in the spec's fixed evaluation
order — transport failure, unreadable body, unexpected status, required
response headers (in stored order), required body substring. -/
def specViolations (check : HealthCheck) (r : RespResult) : List issueEntry :=
  match r with
  | .err _ _ => [⟨danger, check.RequestURL ++ ": cannot be reached"⟩]
  | .ok resp =>
    (if !resp.bodyReadable then
      [⟨danger, check.RequestURL ++ ": response body could not be read"⟩]
     else [])
    ++ (if resp.statusCode ≠ check.ResponseStatusCodeEquals then
          [⟨danger, check.RequestURL ++ ": received unexpected status code "
            ++ toString resp.statusCode⟩]
        else [])
    ++ (List.filter (headerMismatch resp) check.ResponseHeaderContains).map
        (fun kv => ⟨danger, check.RequestURL ++ ": expected response header \""
          ++ kv.1 ++ ": " ++ kv.2 ++ "\" could not be found"⟩)
    ++ (if !strContains resp.body check.ResponseBodyContains then
          [⟨danger, check.RequestURL ++ ": expected response body \""
            ++ check.ResponseBodyContains ++ "\" could not be found"⟩]
        else [])

/-- A `slack.Attachment` as `pushToSlack` builds them: `Fallback` and
`Text` both set to the message, plus a colour tag. -/
structure slackAttachment where
  fallback : String
  text : String
  color : String
deriving DecidableEq, Repr

/-- The attachment list built from a batch of messages with one colour. -/
def mkAttachments (msgs : List String) (color : String) : List slackAttachment :=
  msgs.map (fun m => ⟨m, m, color⟩)

/-- `main.go` `pushToSlack`: the ordered list of notification payloads
(message text plus coloured attachments) one invocation hands to
`pushMessageToSlack` — the restart notice, then the Danger batch with the
`<!channel>` broadcast mention, then the Warning batch, then the fixed
batch. -/
def pushToSlack (newIssues fixedIssues : issueEntries) (initial : Bool) :
    List (String × List slackAttachment) :=
  (if newIssues.length > 0 then
    (if initial then
      [("I just (re)started, so I might repeat some known issues.", [])]
     else [])
    ++ (if (issueEntries.filter newIssues danger).length > 0 then
          [("<!channel> New issues discovered.",
            mkAttachments (issueEntries.filter newIssues danger) "bad")]
        else [])
    ++ (if (issueEntries.filter newIssues warning).length > 0 then
          [("New warnings discovered.",
            mkAttachments (issueEntries.filter newIssues warning) "warning")]
        else [])
   else [])
  ++ (if fixedIssues.length > 0 then
        [("The following issues and warnings were fixed.",
          mkAttachments (issueEntries.messages fixedIssues) "good")]
      else [])

/-- `main.go` `pushMessageToSlack`: one payload is sent to every
configured webhook, in order (delivery failures are logged and skipped,
so every send is attempted). -/
def pushMessageToSlack (hooks : List String) (message : String)
    (attachments : List slackAttachment) :
    List (String × String × List slackAttachment) :=
  hooks.map (fun u => (u, message, attachments))

/-- All sends one `pushToSlack` invocation performs across the configured
webhooks. -/
def slackSends (hooks : List String)
    (payloads : List (String × List slackAttachment)) :
    List (String × String × List slackAttachment) :=
  payloads.flatMap (fun p => pushMessageToSlack hooks p.1 p.2)

/-- One peer certificate as the check inspects it: the issuer's
organisation names and the (whole-hour) age of its `NotAfter` instant,
`time.Since(cert.NotAfter)` in hours (negative while still valid). On
whole hours Go's float computation `int(hours/24)` is exact and equals
`goDaysDiv24`. -/
structure Certificate where
  issuerOrgs : List String
  hoursSinceNotAfter : Int
deriving DecidableEq, Repr

/-- Outcome of the `retryablehttp.Head` probe feeding the certificate
check: a transport error, a response without TLS, or the peer
certificate chain. -/
inductive FetchResult where
  | err (msg : String)
  | ok (tls : Option (List Certificate))
deriving DecidableEq, Repr

/-- `main.go` `checkCertificateExpiryOf`: Danger on transport errors,
Warning when the response carries no TLS, and otherwise per certificate a
Danger "has expired <d> days" when the truncated day count since
`NotAfter` is positive, a Warning "will expire in <-d> days" when it is
in (-30, 0], and nothing at 30 or more full days of remaining validity. -/
def checkCertificateExpiryOf (url : String) (fetch : FetchResult) : issueEntries :=
  match fetch with
  | .err e => [⟨danger, url ++ ": error " ++ e⟩]
  | .ok none => [⟨warning, url ++ ": no TLS enabled"⟩]
  | .ok (some certs) =>
    certs.flatMap (fun cert =>
      let issuer := String.intercalate ", " cert.issuerOrgs
      let daysExpired := goDaysDiv24 cert.hoursSinceNotAfter
      if 0 < daysExpired then
        [⟨danger, url ++ ": certificate from " ++ issuer ++ " has expired "
          ++ toString daysExpired ++ " days"⟩]
      else if -30 < daysExpired then
        [⟨warning, url ++ ": certificate from " ++ issuer ++ " will expire in "
          ++ toString (-daysExpired) ++ " days"⟩]
      else [])

/-- Everything that determines one health check's execution: its spec and
its environment (request-construction outcome, retry budget, network
behaviour). -/
structure CheckRun where
  check : HealthCheck
  buildFails : Bool
  retryMax : Nat
  attempts : Nat → Attempt

/-- The value one spawned goroutine sends on the result channel. -/
def runOneCheck (e : CheckRun) : Option issueEntry :=
  runHealthCheck e.check e.buildFails e.retryMax e.attempts

/-- `health_check.go` `runHealthChecks`: every goroutine sends exactly one
(possibly nil) result on the buffered channel; after the join barrier the
receive loop keeps the non-nil ones in arrival order. `arrivals` is the
channel's arrival order — concurrency makes it an arbitrary permutation
of the per-check results, which is how the theorems constrain it. -/
def runHealthChecks (arrivals : List (Option issueEntry)) : issueEntries :=
  arrivals.filterMap id

/-- A two-check configuration: one clean check and one that answers 404. -/
def twoRuns : List CheckRun :=
  [⟨okCheck, false, 4, fun _ => ⟨false, .ok okResp⟩⟩,
   ⟨okCheck, false, 4, notFoundAttempts⟩]

/-! ## Theorems and examples -/

example : goDaysDiv24 241 = 10 := by decide

example : goDaysDiv24 (-241) = -10 := by decide

example : goDaysDiv24 (-720) = -30 := by decide

example :
    difference [⟨danger, "a"⟩, ⟨warning, "b"⟩] [⟨warning, "b"⟩, ⟨danger, "c"⟩] =
      ([⟨danger, "c"⟩], [⟨danger, "a"⟩]) := by decide

lemma buildLut_eq (old : issueEntries) (m : String) :
    buildLut old m = if hasMessage old m then some true else none := by
  induction old with
  | nil => simp [buildLut, hasMessage]
  | cons x rest ih =>
    simp only [buildLut, lutInsert, hasMessage, List.any_cons]
    by_cases h : m = x.message
    · simp [h]
    · have : (x.message == m) = false := by
        simp [beq_iff_eq]; exact fun hc => h hc.symm
      simp [h, this, ih, hasMessage]

lemma curPass_fst (cur : issueEntries) :
    ∀ lut : String → Option Bool,
      (curPass lut cur).1 = List.filter (fun x => (lut x.message).isNone) cur := by
  induction cur with
  | nil => intro lut; simp [curPass]
  | cons x rest ih =>
    intro lut
    cases h : lut x.message with
    | none =>
      simp only [curPass, h, List.filter_cons]
      simp [h, ih]
    | some b =>
      simp only [curPass, h, List.filter_cons]
      have hins : ∀ y : issueEntry,
          ((lutInsert lut x.message false y.message).isNone : Bool) =
            ((lut y.message).isNone : Bool) := by
        intro y
        unfold lutInsert
        by_cases hy : y.message = x.message
        · simp [hy, h]
        · simp [hy]
      rw [ih (lutInsert lut x.message false)]
      have : (fun y : issueEntry => (lutInsert lut x.message false y.message).isNone)
          = fun y : issueEntry => (lut y.message).isNone := by
        funext y; exact hins y
      rw [this]
      simp [h]

lemma curPass_snd (cur : issueEntries) :
    ∀ (lut : String → Option Bool) (m : String),
      (curPass lut cur).2 m =
        if hasMessage cur m ∧ (lut m).isSome then some false else lut m := by
  induction cur with
  | nil => intro lut m; simp [curPass, hasMessage]
  | cons x rest ih =>
    intro lut m
    cases h : lut x.message with
    | none =>
      simp only [curPass, h]
      rw [ih lut m]
      by_cases hm : m = x.message
      · subst hm
        simp [hasMessage, h] at *
      · have : (x.message == m) = false := by
          simp [beq_iff_eq]; exact fun hc => hm hc.symm
        simp [hasMessage, this]
    | some b =>
      simp only [curPass, h]
      rw [ih (lutInsert lut x.message false) m]
      by_cases hm : m = x.message
      · subst hm
        simp [lutInsert, hasMessage, h]
      · have hxm : (x.message == m) = false := by
          simp [beq_iff_eq]; exact fun hc => hm hc.symm
        simp only [lutInsert, if_neg hm, hasMessage, List.any_cons, hxm,
          Bool.false_or]

/-- Workhorse characterization: `difference` computes, in one pass with a
mutable presence map, exactly the two message-membership filters. -/
lemma difference_eq_filters (old cur : issueEntries) :
    difference old cur =
      (List.filter (fun x => !hasMessage old x.message) cur,
       List.filter (fun x => !hasMessage cur x.message) old) := by
  unfold difference
  refine Prod.ext ?_ ?_
  · simp only
    rw [curPass_fst]
    apply List.filter_congr
    intro x _
    rw [buildLut_eq]
    by_cases h : hasMessage old x.message <;> simp [h]
  · simp only
    apply List.filter_congr
    intro x hx
    rw [curPass_snd, buildLut_eq]
    by_cases hc : hasMessage cur x.message
    · by_cases ho : hasMessage old x.message <;> simp [hc, ho]
    · have ho : hasMessage old x.message = true := by
        unfold hasMessage
        exact List.any_eq_true.mpr ⟨x, hx, by simp⟩
      simp [hc, ho]

/-- C1: `difference(previous, current)` returns as `appeared` exactly the
issues of `current` whose message occurs in no issue of `previous`, in
`current`'s order, and as `resolved` exactly the issues of `previous`
(kept whole, hence with their original severity) whose message occurs in
no issue of `current`, in `previous`'s relative order; messages are
compared by exact string equality (`hasMessage`). -/
theorem difference_appeared_resolved (old cur : issueEntries) :
    (difference old cur).1 = List.filter (fun x => !hasMessage old x.message) cur ∧
    (difference old cur).2 = List.filter (fun x => !hasMessage cur x.message) old := by
  rw [difference_eq_filters]
  exact ⟨rfl, rfl⟩

/-- C4: `difference A B` partitions the symmetric difference of `A` and `B`
by message membership (an element lands in `appeared` iff it is an issue of
`B` whose message is absent from `A`, in `resolved` iff it is an issue of
`A` whose message is absent from `B`, and no message occurs on both
sides); moreover `difference A A = ([], [])`, `difference [] B` appears
all of `B`, and `difference A []` resolves all of `A`. -/
theorem difference_algebra (A B : issueEntries) :
    difference A A = ([], []) ∧
    (difference [] B).1 = B ∧
    (difference A []).2 = A ∧
    (∀ x : issueEntry,
      (x ∈ (difference A B).1 ↔ x ∈ B ∧ ¬hasMessage A x.message = true) ∧
      (x ∈ (difference A B).2 ↔ x ∈ A ∧ ¬hasMessage B x.message = true)) ∧
    (∀ m : String,
      ¬(hasMessage (difference A B).1 m = true ∧ hasMessage (difference A B).2 m = true)) := by
  refine ⟨?_, ?_, ?_, ?_, ?_⟩
  · rw [difference_eq_filters]
    have h : ∀ l : issueEntries,
        List.filter (fun x => !hasMessage l x.message) l = [] := by
      intro l
      apply List.filter_eq_nil_iff.mpr
      intro a ha
      have : hasMessage l a.message = true :=
        List.any_eq_true.mpr ⟨a, ha, by simp⟩
      simp [this]
    rw [h A]
  · rw [difference_eq_filters]
    simp [hasMessage]
  · rw [difference_eq_filters]
    simp [hasMessage]
  · intro x
    rw [difference_eq_filters]
    constructor
    · simp [List.mem_filter]
    · simp [List.mem_filter]
  · intro m
    rw [difference_eq_filters]
    rintro ⟨h1, h2⟩
    obtain ⟨x, hx, hxm⟩ := List.any_eq_true.mp h1
    obtain ⟨y, hy, hym⟩ := List.any_eq_true.mp h2
    rw [List.mem_filter] at hx hy
    have hxA : hasMessage A x.message = false := by
      simpa using hx.2
    have hyA : hasMessage A y.message = true :=
      List.any_eq_true.mpr ⟨y, hy.1, by simp⟩
    rw [beq_iff_eq] at hxm hym
    rw [hxm] at hxA
    rw [hym] at hyA
    rw [hxA] at hyA
    exact Bool.false_ne_true hyA

example : strContains "hello" "ell" = true := by decide

example : strContains "hello" "" = true := by decide

example : strContains "hello" "elo" = false := by decide

example :
    runHealthCheck okCheck false 4 (fun _ => ⟨false, .ok okResp⟩) = none := by
  decide

example :
    runHealthCheck okCheck false 4
      (fun i => if i = 0 then ⟨false, .ok resp500⟩ else ⟨false, .ok okResp⟩) =
      some ⟨warning,
        "Unstable health check: https://x: received unexpected status code 500"⟩ := by
  decide

example :
    runHealthCheck okCheck false 4 (fun _ => ⟨false, .ok resp500⟩) =
      some ⟨danger, "https://x: cannot be reached"⟩ := by
  decide

lemma orElseO_none_right (a : Option issueEntry) : orElseO a none = a := by
  cases a <;> rfl

lemma orElseO_assoc (a b d : Option issueEntry) :
    orElseO (orElseO a b) d = orElseO a (orElseO b d) := by
  cases a <;> rfl

lemma interUpdate_eq (inter g : Option issueEntry) :
    (if inter.isNone then g else inter) = orElseO inter g := by
  cases inter <;> rfl

lemma firstClassAmong_snoc (c : HealthCheck) (attempts : Nat → Attempt) :
    ∀ (k i : Nat),
      orElseO (firstClassAmong c attempts i k)
          (generateHealthCheckIssueEntry c (attempts (i + k)).result) =
        firstClassAmong c attempts i (k + 1) := by
  intro k
  induction k with
  | zero =>
    intro i
    show generateHealthCheckIssueEntry c (attempts (i + 0)).result =
      orElseO (generateHealthCheckIssueEntry c (attempts i).result) none
    rw [Nat.add_zero, orElseO_none_right]
  | succ k ih =>
    intro i
    have h1 : firstClassAmong c attempts i (k + 1) =
        orElseO (generateHealthCheckIssueEntry c (attempts i).result)
          (firstClassAmong c attempts (i + 1) k) := rfl
    have h2 : firstClassAmong c attempts i (k + 2) =
        orElseO (generateHealthCheckIssueEntry c (attempts i).result)
          (firstClassAmong c attempts (i + 1) (k + 1)) := rfl
    rw [h1, h2, orElseO_assoc]
    have hidx : i + (k + 1) = (i + 1) + k := by omega
    rw [hidx, ih (i + 1)]

/-- Stopping: when the retry policy rejects attempt `i`, the loop ends
there, hands back that attempt's outcome (a synthetic transport error if
the context was cancelled), leaves the intermediate cell untouched, and
has performed `i + 1` attempts. -/
lemma doLoop_stop (c : HealthCheck) (attempts : Nat → Attempt) (i fuel : Nat)
    (inter : Option issueEntry)
    (h : (defaultRetryPolicy (attempts i)).1 = false) :
    doLoop c attempts i fuel inter = (doStop (attempts i), inter, i + 1) := by
  cases fuel <;> simp [doLoop, h]

/-- Retrying: when the policy demands a retry of each of the attempts
`i, …, i+k-1` and the budget allows it, the loop walks through them,
accumulating the first non-clean classification into the intermediate
cell. -/
lemma doLoop_retries (c : HealthCheck) (attempts : Nat → Attempt) :
    ∀ (k i fuel : Nat) (inter : Option issueEntry),
      (∀ j, j < k → (defaultRetryPolicy (attempts (i + j))).1 = true) →
      k ≤ fuel →
      doLoop c attempts i fuel inter =
        doLoop c attempts (i + k) (fuel - k)
          (orElseO inter (firstClassAmong c attempts i k)) := by
  intro k
  induction k with
  | zero =>
    intro i fuel inter _ _
    simp [firstClassAmong, orElseO_none_right]
  | succ k ih =>
    intro i fuel inter hret hfuel
    cases fuel with
    | zero => omega
    | succ f =>
      have h0 : (defaultRetryPolicy (attempts i)).1 = true := by
        have := hret 0 (by omega)
        simpa using this
      have hstep : doLoop c attempts i (f + 1) inter =
          doLoop c attempts (i + 1) f
            (orElseO inter (generateHealthCheckIssueEntry c (attempts i).result)) := by
        cases inter <;> simp [doLoop, h0, orElseO]
      rw [hstep]
      have hret' : ∀ j, j < k → (defaultRetryPolicy (attempts (i + 1 + j))).1 = true := by
        intro j hj
        have := hret (j + 1) (by omega)
        have hidx : i + (j + 1) = i + 1 + j := by omega
        rwa [hidx] at this
      rw [ih (i + 1) f _ hret' (by omega)]
      have hidx1 : i + 1 + k = i + (k + 1) := by omega
      have hidx2 : f - k = f + 1 - (k + 1) := by omega
      rw [hidx1, hidx2, orElseO_assoc]
      rfl

/-- Exhaustion: when the policy demands a retry at every attempt the
budget admits, the loop gives up with a transport-level failure after
`fuel + 1` attempts, the intermediate cell holding the first non-clean
classification among all of them. -/
lemma doLoop_exhaust (c : HealthCheck) (attempts : Nat → Attempt) (i fuel : Nat)
    (inter : Option issueEntry)
    (h : ∀ j, j ≤ fuel → (defaultRetryPolicy (attempts (i + j))).1 = true) :
    doLoop c attempts i fuel inter =
      (.err "giving up after retries" true,
       orElseO inter (firstClassAmong c attempts i (fuel + 1)), i + fuel + 1) := by
  rw [doLoop_retries c attempts fuel i fuel inter (fun j hj => h j (Nat.le_of_lt hj))
    le_rfl]
  have hlast : (defaultRetryPolicy (attempts (i + fuel))).1 = true := h fuel le_rfl
  simp only [Nat.sub_self, doLoop, hlast, if_true, Bool.true_and, interUpdate_eq]
  rw [orElseO_assoc, firstClassAmong_snoc]

/-- C3 (counterexample): with the client's default retry budget of 4 and an
endpoint answering 500 to every attempt, the final (fifth) attempt
classifies non-clean as an unexpected status code 500, yet `runHealthCheck`
returns the give-up transport classification "cannot be reached", not that
final attempt's classification. -/
theorem runHealthCheck_final_nonclean_counterexample :
    generateHealthCheckIssueEntry (applyDefaults okCheck) (.ok resp500) =
      some ⟨danger, "https://x: received unexpected status code 500"⟩ ∧
    runHealthCheck okCheck false 4 (fun _ => ⟨false, .ok resp500⟩) =
      some ⟨danger, "https://x: cannot be reached"⟩ ∧
    (⟨danger, "https://x: cannot be reached"⟩ : issueEntry) ≠
      ⟨danger, "https://x: received unexpected status code 500"⟩ := by
  refine ⟨by decide, by decide, by decide⟩

/-- C3 (amended): when the retry policy accepts attempt `k` as final (all
earlier attempts were retried, attempt `k` is not retried and the context
is not cancelled), a clean final classification yields the
Warning-severity "Unstable health check: " report built from the first
non-clean classification among the retried attempts (and no issue when
none was recorded), while a non-clean final classification is returned
as-is; but when the retry budget is exhausted with the policy still
demanding retries, the result is the Danger "cannot be reached" give-up
classification regardless of the final attempt's own classification. -/
theorem runHealthCheck_unstable_and_final (check : HealthCheck)
    (attempts : Nat → Attempt) (retryMax : Nat) :
    (∀ k, k ≤ retryMax →
      (∀ j, j < k → (defaultRetryPolicy (attempts j)).1 = true) →
      (defaultRetryPolicy (attempts k)).1 = false →
      (attempts k).ctxCancelled = false →
      (generateHealthCheckIssueEntry (applyDefaults check) (attempts k).result = none →
        runHealthCheck check false retryMax attempts =
          Option.map (fun ii => (⟨warning, "Unstable health check: " ++ ii.message⟩ : issueEntry))
            (firstClassAmong (applyDefaults check) attempts 0 k)) ∧
      (∀ is, generateHealthCheckIssueEntry (applyDefaults check) (attempts k).result = some is →
        runHealthCheck check false retryMax attempts = some is)) ∧
    ((∀ j, j ≤ retryMax → (defaultRetryPolicy (attempts j)).1 = true) →
      runHealthCheck check false retryMax attempts =
        some ⟨danger, check.RequestURL ++ ": cannot be reached"⟩) := by
  constructor
  · intro k hk hret hstop hctx
    have hloop : doLoop (applyDefaults check) attempts 0 retryMax none =
        ((attempts k).result, firstClassAmong (applyDefaults check) attempts 0 k, k + 1) := by
      rw [doLoop_retries (applyDefaults check) attempts k 0 retryMax none
        (fun j hj => by simpa using hret j hj) hk]
      rw [doLoop_stop (applyDefaults check) attempts (0 + k) (retryMax - k) _
        (by simpa using hstop)]
      have h0k : 0 + k = k := by omega
      rw [h0k]
      have hds : doStop (attempts k) = (attempts k).result := by
        simp [doStop, hctx]
      rw [hds]
      rfl
    have hrun : runHealthCheck check false retryMax attempts =
        (match generateHealthCheckIssueEntry (applyDefaults check) (attempts k).result with
         | some issue => some issue
         | none =>
           match firstClassAmong (applyDefaults check) attempts 0 k with
           | some ii => some ⟨warning, "Unstable health check: " ++ ii.message⟩
           | none => none) := by
      unfold runHealthCheck
      rw [if_neg (by simp)]
      rw [hloop]
    constructor
    · intro hclean
      rw [hrun, hclean]
      cases firstClassAmong (applyDefaults check) attempts 0 k <;> rfl
    · intro is hiss
      rw [hrun, hiss]
  · intro hall
    have hloop : doLoop (applyDefaults check) attempts 0 retryMax none =
        (.err "giving up after retries" true,
         orElseO none (firstClassAmong (applyDefaults check) attempts 0 (retryMax + 1)),
         0 + retryMax + 1) :=
      doLoop_exhaust (applyDefaults check) attempts 0 retryMax none
        (fun j hj => by simpa using hall j hj)
    unfold runHealthCheck
    rw [if_neg (by simp)]
    rw [hloop]
    have hurl : (applyDefaults check).RequestURL = check.RequestURL := rfl
    simp [generateHealthCheckIssueEntry, hurl]

/-- C3 (witness): the flaky-then-pass scenario — first attempt 500, second
200 — produces exactly the unstable Warning. -/
theorem runHealthCheck_unstable_and_final_witness :
    (1 ≤ 4 ∧
      (∀ j, j < 1 → (defaultRetryPolicy (flakyAttempts j)).1 = true) ∧
      (defaultRetryPolicy (flakyAttempts 1)).1 = false ∧
      (flakyAttempts 1).ctxCancelled = false ∧
      generateHealthCheckIssueEntry (applyDefaults okCheck) (flakyAttempts 1).result = none) ∧
    runHealthCheck okCheck false 4 flakyAttempts =
      some ⟨warning, "Unstable health check: https://x: received unexpected status code 500"⟩ := by
  refine ⟨⟨by decide, by decide, by decide, by decide, by decide⟩, ?_⟩
  have h := ((runHealthCheck_unstable_and_final okCheck flakyAttempts 4).1 1 (by decide)
    (by decide) (by decide) (by decide)).1 (by decide)
  rw [h]
  decide

/-- C7 (counterexample): an attempt whose response classifies non-clean
(status 404 against expected 200) does not trigger a retry even though the
context is not cancelled and the budget (4) is untouched: the run stops
after exactly one attempt and returns the 404 classification. -/
theorem runHealthCheck_no_retry_counterexample :
    generateHealthCheckIssueEntry (applyDefaults okCheck) (notFoundAttempts 0).result =
      some ⟨danger, "https://x: received unexpected status code 404"⟩ ∧
    (notFoundAttempts 0).ctxCancelled = false ∧
    0 < 4 ∧
    runHealthCheckCount okCheck false 4 notFoundAttempts = 1 ∧
    runHealthCheck okCheck false 4 notFoundAttempts =
      some ⟨danger, "https://x: received unexpected status code 404"⟩ := by
  refine ⟨by decide, by decide, by decide, by decide, by decide⟩

/-- C7 (amended): a retry happens exactly when the HTTP client's default
retry policy demands it — never once the context is cancelled (the loop
then stops with a synthetic transport error), never when the policy
rejects the attempt (the loop stops at that attempt, having performed
`i + 1` attempts), one more attempt when the policy demands a retry and
budget remains, with the first non-clean classification recorded — and
the number of attempts never exceeds the retry budget plus one. -/
theorem doLoop_retry_policy (c : HealthCheck) (attempts : Nat → Attempt)
    (i f fuel : Nat) (inter : Option issueEntry) :
    ((attempts i).ctxCancelled = true →
      doLoop c attempts i fuel inter = (.err "context cancelled" true, inter, i + 1)) ∧
    ((defaultRetryPolicy (attempts i)).1 = false →
      doLoop c attempts i fuel inter = (doStop (attempts i), inter, i + 1)) ∧
    ((defaultRetryPolicy (attempts i)).1 = true →
      doLoop c attempts i (f + 1) inter =
        doLoop c attempts (i + 1) f
          (orElseO inter (generateHealthCheckIssueEntry c (attempts i).result))) ∧
    (doLoop c attempts i fuel inter).2.2 ≤ i + fuel + 1 := by
  refine ⟨?_, ?_, ?_, ?_⟩
  · intro hctx
    have hpol : (defaultRetryPolicy (attempts i)).1 = false := by
      simp [defaultRetryPolicy, hctx]
    rw [doLoop_stop c attempts i fuel inter hpol]
    simp [doStop, hctx]
  · intro hpol
    exact doLoop_stop c attempts i fuel inter hpol
  · intro hpol
    cases inter <;> simp [doLoop, hpol, orElseO]
  · induction fuel generalizing i inter with
    | zero =>
      by_cases hpol : (defaultRetryPolicy (attempts i)).1 = true <;>
        simp [doLoop, hpol]
    | succ fl ih =>
      by_cases hpol : (defaultRetryPolicy (attempts i)).1 = true
      · have hstep : doLoop c attempts i (fl + 1) inter =
            doLoop c attempts (i + 1) fl
              (orElseO inter (generateHealthCheckIssueEntry c (attempts i).result)) := by
          cases inter <;> simp [doLoop, hpol, orElseO]
        rw [hstep]
        have := ih (i + 1) (orElseO inter (generateHealthCheckIssueEntry c (attempts i).result))
        omega
      · rw [doLoop_stop c attempts i (fl + 1) inter (by simpa using hpol)]
        simp

/-- C7 (witness): the 404 endpoint instantiates the no-retry branch of the
policy characterization. -/
theorem doLoop_retry_policy_witness :
    (defaultRetryPolicy (notFoundAttempts 0)).1 = false ∧
    doLoop (applyDefaults okCheck) notFoundAttempts 0 4 none =
      (doStop (notFoundAttempts 0), none, 0 + 1) := by
  refine ⟨by decide, ?_⟩
  exact (doLoop_retry_policy (applyDefaults okCheck) notFoundAttempts 0 0 4 none).2.1
    (by decide)

/-- C8 (counterexample): when the client itself errors without producing a
response (here: a permanent "unsupported protocol scheme" transport
error), the issue is Danger "`<url>: cannot be reached`", not Danger
"`Health check failed unexpectedly: <error>`" — no message of that shape
exists in the program. -/
theorem runHealthCheck_transport_message_counterexample :
    runHealthCheck okCheck false 4 permErrAttempts =
      some ⟨danger, "https://x: cannot be reached"⟩ ∧
    (⟨danger, "https://x: cannot be reached"⟩ : issueEntry) ≠
      ⟨danger, "Health check failed unexpectedly: unsupported protocol scheme"⟩ := by
  refine ⟨by decide, by decide⟩

/-- C8 (amended): a whole-execution transport failure that the classifier
never sees as a response — the client errors without producing any
response, with a permanent, never-retried error — yields severity Danger
with message "`<url>: cannot be reached`". -/
theorem runHealthCheck_transport_failure (check : HealthCheck) (retryMax : Nat)
    (attempts : Nat → Attempt) (m : String)
    (herr : (attempts 0).result = .err m true)
    (hctx : (attempts 0).ctxCancelled = false) :
    runHealthCheck check false retryMax attempts =
      some ⟨danger, check.RequestURL ++ ": cannot be reached"⟩ := by
  have hpol : (defaultRetryPolicy (attempts 0)).1 = false := by
    simp [defaultRetryPolicy, hctx, herr]
  unfold runHealthCheck
  rw [if_neg (by simp)]
  rw [doLoop_stop (applyDefaults check) attempts 0 retryMax none hpol]
  have hds : doStop (attempts 0) = .err m true := by
    simp [doStop, hctx, herr]
  rw [hds]
  have hurl : (applyDefaults check).RequestURL = check.RequestURL := rfl
  simp [generateHealthCheckIssueEntry, hurl]

/-- C8 (witness): the permanent-transport-error client produces exactly the
Danger "cannot be reached" issue. -/
theorem runHealthCheck_transport_failure_witness :
    ((permErrAttempts 0).result = .err "unsupported protocol scheme" true ∧
      (permErrAttempts 0).ctxCancelled = false) ∧
    runHealthCheck okCheck false 4 permErrAttempts =
      some ⟨danger, "https://x: cannot be reached"⟩ := by
  refine ⟨⟨by decide, by decide⟩, ?_⟩
  exact runHealthCheck_transport_failure okCheck 4 permErrAttempts
    "unsupported protocol scheme" (by decide) (by decide)

/-- C9: a health check whose request construction fails returns exactly the
Warning "`<url>: invalid health check`" as its sole outcome, performing no
network attempt at all — for every retry budget and every behaviour of the
network. -/
theorem runHealthCheck_invalid_request (check : HealthCheck) (retryMax : Nat)
    (attempts : Nat → Attempt) :
    runHealthCheck check true retryMax attempts =
      some ⟨warning, check.RequestURL ++ ": invalid health check"⟩ ∧
    runHealthCheckCount check true retryMax attempts = 0 := by
  constructor
  · unfold runHealthCheck
    rw [if_pos rfl]
    rfl
  · rfl

/-- C2: the per-response classifier returns exactly the head of the
ordered violation list — the first violation in the fixed order transport
failure, unreadable body, unexpected status code, response-header
mismatch, missing body substring — and hence `none` exactly when there is
no violation, never aggregating several violations into one issue. -/
theorem generateHealthCheckIssueEntry_first_violation (check : HealthCheck)
    (r : RespResult) :
    generateHealthCheckIssueEntry check r = (specViolations check r).head? := by
  cases r with
  | err m p => rfl
  | ok resp =>
    show (if !resp.bodyReadable then _ else _) = _
    by_cases hb : resp.bodyReadable
    · rw [specViolations]
      simp only [hb, Bool.not_true, Bool.false_eq_true, if_false, List.nil_append]
      by_cases hs : resp.statusCode = check.ResponseStatusCodeEquals
      · simp only [hs, ne_eq, not_true_eq_false, decide_False, Bool.false_eq_true,
          if_false, List.nil_append]
        cases hf : List.find? (headerMismatch resp) check.ResponseHeaderContains with
        | some kv =>
          have hhead : (List.filter (headerMismatch resp)
              check.ResponseHeaderContains).head? = some kv := by
            rw [List.filter_head?]
            exact hf
          cases hfl : List.filter (headerMismatch resp) check.ResponseHeaderContains with
          | nil => rw [hfl] at hhead; simp at hhead
          | cons a tl =>
            rw [hfl] at hhead
            simp only [List.head?_cons, Option.some.injEq] at hhead
            subst hhead
            simp [hf]
        | none =>
          have hfl : List.filter (headerMismatch resp) check.ResponseHeaderContains = [] := by
            rw [List.filter_eq_nil_iff]
            intro a ha
            have := List.find?_eq_none.mp hf a ha
            simpa using this
          rw [hfl]
          simp only [List.map_nil, List.nil_append]
          by_cases hc : strContains resp.body check.ResponseBodyContains
          · simp [hf, hc]
          · simp [hf, hc]
      · simp only [hs, ne_eq, not_false_eq_true, decide_True, if_true]
        simp [hs]
    · simp only [Bool.not_eq_true] at hb
      rw [specViolations]
      simp [hb]

/-- C5: with `appeared = [Danger "X", Warning "Y"]`, `resolved = []` and
not the first cycle, exactly two payloads are produced — first the
broadcast-tagged (`<!channel>`) one containing only "X", then the
non-urgent one containing only "Y" — no fixed notification, and per
configured channel exactly these two sends occur. -/
theorem pushToSlack_two_sends :
    pushToSlack [⟨danger, "X"⟩, ⟨warning, "Y"⟩] [] false =
      [("<!channel> New issues discovered.", [⟨"X", "X", "bad"⟩]),
       ("New warnings discovered.", [⟨"Y", "Y", "warning"⟩])] ∧
    "The following issues and warnings were fixed." ∉
      (pushToSlack [⟨danger, "X"⟩, ⟨warning, "Y"⟩] [] false).map Prod.fst ∧
    ∀ hooks : List String,
      slackSends hooks (pushToSlack [⟨danger, "X"⟩, ⟨warning, "Y"⟩] [] false) =
        hooks.map (fun u => (u, "<!channel> New issues discovered.", [(⟨"X", "X", "bad"⟩ : slackAttachment)]))
        ++ hooks.map (fun u => (u, "New warnings discovered.", [(⟨"Y", "Y", "warning"⟩ : slackAttachment)])) := by
  refine ⟨by decide, by decide, ?_⟩
  intro hooks
  have hpay : pushToSlack [⟨danger, "X"⟩, ⟨warning, "Y"⟩] [] false =
      [("<!channel> New issues discovered.", [⟨"X", "X", "bad"⟩]),
       ("New warnings discovered.", [⟨"Y", "Y", "warning"⟩])] := by decide
  rw [hpay]
  simp [slackSends, pushMessageToSlack]

lemma goDaysDiv24_pos_iff (h : Int) : 0 < goDaysDiv24 h ↔ 24 ≤ h := by
  unfold goDaysDiv24
  by_cases hp : 0 ≤ h <;> simp [hp] <;> omega

lemma goDaysDiv24_gt_neg30_iff (h : Int) : -30 < goDaysDiv24 h ↔ -720 < h := by
  unfold goDaysDiv24
  by_cases hp : 0 ≤ h <;> simp [hp] <;> omega

/-- C6 (counterexample): a certificate whose `NotAfter` lies 12 hours in
the past is already expired, yet the check emits a Warning "will expire
in 0 days" and no Danger at all. -/
theorem checkCertificateExpiry_subday_counterexample :
    (0 : Int) < 12 ∧
    checkCertificateExpiryOf "https://x" (.ok (some [⟨["Org"], 12⟩])) =
      [⟨warning, "https://x: certificate from Org will expire in 0 days"⟩] ∧
    ∀ i ∈ checkCertificateExpiryOf "https://x" (.ok (some [⟨["Org"], 12⟩])),
      i.issueType ≠ danger := by
  refine ⟨by decide, by decide, by decide⟩

/-- C6 (amended): for a single certificate, an issue is emitted iff fewer
than 30 full days (720 hours) of validity remain; it is the Danger
"has expired <d> days" exactly when at least one full day (24 hours) has
passed since expiry, and the Warning "will expire in <-d> days" exactly
when the truncated day count lies in (-30, 0] — in particular 10 days
past expiry gives Danger "has expired 10 days", 10 days of remaining
validity gives Warning "will expire in 10 days", 45 days of remaining
validity gives no issue — and a response without TLS gives a Warning. -/
theorem checkCertificateExpiry_thresholds (url : String) (orgs : List String)
    (h : Int) :
    (checkCertificateExpiryOf url (.ok (some [⟨orgs, h⟩])) ≠ [] ↔ -720 < h) ∧
    (24 ≤ h →
      checkCertificateExpiryOf url (.ok (some [⟨orgs, h⟩])) =
        [⟨danger, url ++ ": certificate from " ++ String.intercalate ", " orgs
          ++ " has expired " ++ toString (goDaysDiv24 h) ++ " days"⟩]) ∧
    (-720 < h → h < 24 →
      checkCertificateExpiryOf url (.ok (some [⟨orgs, h⟩])) =
        [⟨warning, url ++ ": certificate from " ++ String.intercalate ", " orgs
          ++ " will expire in " ++ toString (-(goDaysDiv24 h)) ++ " days"⟩]) ∧
    (h ≤ -720 → checkCertificateExpiryOf url (.ok (some [⟨orgs, h⟩])) = []) ∧
    (checkCertificateExpiryOf url (.ok none) = [⟨warning, url ++ ": no TLS enabled"⟩]) ∧
    checkCertificateExpiryOf "https://x" (.ok (some [⟨["Org"], 240⟩])) =
      [⟨danger, "https://x: certificate from Org has expired 10 days"⟩] ∧
    checkCertificateExpiryOf "https://x" (.ok (some [⟨["Org"], -240⟩])) =
      [⟨warning, "https://x: certificate from Org will expire in 10 days"⟩] ∧
    checkCertificateExpiryOf "https://x" (.ok (some [⟨["Org"], -1080⟩])) = [] := by
  have hpos := goDaysDiv24_pos_iff h
  have hneg := goDaysDiv24_gt_neg30_iff h
  refine ⟨?_, ?_, ?_, ?_, rfl, by decide, by decide, by decide⟩
  · by_cases h24 : 0 < goDaysDiv24 h
    · simp [checkCertificateExpiryOf, h24]
      omega
    · by_cases h30 : -30 < goDaysDiv24 h
      · simp [checkCertificateExpiryOf, h24, h30]
        omega
      · simp [checkCertificateExpiryOf, h24, h30]
        omega
  · intro hge
    have h24 : 0 < goDaysDiv24 h := hpos.mpr hge
    simp [checkCertificateExpiryOf, h24]
  · intro hgt hlt
    have h24 : ¬ 0 < goDaysDiv24 h := by omega
    have h30 : -30 < goDaysDiv24 h := hneg.mpr hgt
    simp [checkCertificateExpiryOf, h24, h30]
  · intro hle
    have h24 : ¬ 0 < goDaysDiv24 h := by omega
    have h30 : ¬ -30 < goDaysDiv24 h := by omega
    simp [checkCertificateExpiryOf, h24, h30]

/-- C6 (witness): the 10-days-of-validity boundary example instantiates
the Warning branch of the threshold characterization. -/
theorem checkCertificateExpiry_thresholds_witness :
    ((-720 : Int) < -240 ∧ (-240 : Int) < 24) ∧
    checkCertificateExpiryOf "https://w" (.ok (some [⟨["O"], -240⟩])) =
      [⟨warning, "https://w: certificate from O will expire in 10 days"⟩] := by
  refine ⟨⟨by decide, by decide⟩, ?_⟩
  have h := (checkCertificateExpiry_thresholds "https://w" ["O"] (-240)).2.2.1
    (by decide) (by decide)
  rw [h]
  decide

/-- C10: whatever order the goroutines complete in, `runHealthChecks`
returns exactly the multiset of non-`none` results of `runHealthCheck`
over the configured checks — nothing dropped, nothing duplicated — so
each check contributes at most one issue and the result is never longer
than the check list. -/
theorem runHealthChecks_fan_in (runs : List CheckRun)
    (arrivals : List (Option issueEntry))
    (h : arrivals.Perm (runs.map runOneCheck)) :
    (runHealthChecks arrivals).Perm (runs.filterMap runOneCheck) ∧
    (runHealthChecks arrivals).length ≤ runs.length := by
  have h2 : (arrivals.filterMap id).Perm ((runs.map runOneCheck).filterMap id) :=
    h.filterMap id
  have h3 : (runs.map runOneCheck).filterMap id = runs.filterMap runOneCheck := by
    rw [List.filterMap_map]
    rfl
  rw [h3] at h2
  refine ⟨h2, ?_⟩
  calc (runHealthChecks arrivals).length
      = (runs.filterMap runOneCheck).length := h2.length_eq
    _ ≤ runs.length := List.length_filterMap_le _ _

/-- C10 (witness): with a clean check and a failing check completing in
reversed order, the fan-in still returns exactly the one 404 issue. -/
theorem runHealthChecks_fan_in_witness :
    ([some ⟨danger, "https://x: received unexpected status code 404"⟩, none] :
        List (Option issueEntry)).Perm (twoRuns.map runOneCheck) ∧
    (runHealthChecks
        [some ⟨danger, "https://x: received unexpected status code 404"⟩, none]).Perm
      (twoRuns.filterMap runOneCheck) := by
  refine ⟨by decide, ?_⟩
  exact (runHealthChecks_fan_in twoRuns
    [some ⟨danger, "https://x: received unexpected status code 404"⟩, none]
    (by decide)).1
